import Mathlib

/-!
Shallow embedding of `src/normalize.py` (exam-normalizer).

The program normalizes a batch-scanned stack of exam booklets: it detects
booklet boundaries from per-page QR markers, pads each booklet with blank
filler pages to a multiple of a target length, splices a two-page stand-in
for a missing "heap" (scratch) section, routes booklets into an unpadded
and a padded output group, and reports summary statistics.

External collaborators (pdftk splitting/merging, rasterization, QR
decoding, the filesystem) are out of scope; the decoded marker of a page
is therefore modelled as data carried alongside the page in the input
stream, exactly as `split_documents` consumes it after calling
`get_qr_code` on the page's image.

Python numeric semantics: `a % b` is the floor modulus (sign of the
divisor), which is `Int.fmod`; `a % 0` raises `ZeroDivisionError`, so the
modulus is modelled as an `Option`-returning operation `pyMod`.
Python list slicing clamps out-of-range bounds (`List.take`/`List.drop`),
and `lst * k` for `k ≤ 0` is the empty list (`Int.toNat` clamps).
-/

/-- Constant `FRONT_PAGE_CODE` from normalize.py: marker payload of a cover page. -/
def FRONT_PAGE_CODE : String := "exam-normalizer-1"

/-- Constant `HEAP_PAGE_CODE` from normalize.py: marker payload of a heap page. -/
def HEAP_PAGE_CODE : String := "exam-normalizer-2"

/-- Constant `BLANK_PAGE_FILENAME` from normalize.py. -/
def BLANK_PAGE_FILENAME : String := "blank.pdf"

/-- A page as handled by `Document`: a tuple of (pdf filename, image
filename).  The image component is optional because the synthetic filler
page is the tuple `(BLANK_PAGE_FILENAME, None)`. -/
abbrev PageT := String × Option String

/-- The filler page `(BLANK_PAGE_FILENAME, None)` used as `padding` in
`Document.pages`. -/
def blank_page : PageT := (BLANK_PAGE_FILENAME, none)

/-- Python integer modulus `a % b`: floor modulus (`Int.fmod`), raising
`ZeroDivisionError` when `b = 0` (modelled as `none`). -/
def pyMod (a b : Int) : Option Int :=
  if b = 0 then none else some (Int.fmod a b)

/-- The `Document` class of normalize.py: `_scans` (the pages added so
far), `target_length` (the caller-supplied correct page count, a Python
int), and the `has_heap_page` flag. -/
structure Document where
  scans : List PageT
  target_length : Int
  has_heap_page : Bool
deriving DecidableEq, Repr

/-- Constructor `Document.__init__(target_length)`: empty scans, heap flag false. -/
def Document.init (target_length : Int) : Document :=
  { scans := [], target_length := target_length, has_heap_page := false }

/-- Method `Document.add_page(page)`: append to `_scans`. -/
def Document.add_page (d : Document) (page : PageT) : Document :=
  { d with scans := d.scans ++ [page] }

/-- Property `Document.length`: `len(self._scans)`. -/
def Document.length (d : Document) : Nat := d.scans.length

/-- Property `Document.padding_length`: `(-self.length) % self.target_length`
(Python floor modulus; raises when `target_length = 0`). -/
def Document.padding_length (d : Document) : Option Int :=
  pyMod (-(d.length : Int)) d.target_length

/-- Property `Document.isPadded`: `self.padding_length > 0`. -/
def Document.isPadded (d : Document) : Option Bool :=
  d.padding_length.map (fun r => decide (0 < r))

/-- Property `Document.pages`: the scans with padding.  If the document is padded
and has no heap page, two filler pages are spliced after index 12
(`self._scans[:12] + 2*padding + self._scans[12:]`); then filler pages are
appended to reach a multiple of `target_length`
(`pages + padding*(-len(pages) % self.target_length)`). -/
def Document.pages (d : Document) : Option (List PageT) := do
  let padded ← d.isPadded
  let base :=
    if padded && !d.has_heap_page then
      d.scans.take 12 ++ [blank_page, blank_page] ++ d.scans.drop 12
    else
      d.scans
  let k ← pyMod (-(base.length : Int)) d.target_length
  pure (base ++ List.replicate k.toNat blank_page)

/-- Property `Document.pdf_pages`: `[pdf for pdf, _ in self.pages]`. -/
def Document.pdf_pages (d : Document) : Option (List String) :=
  d.pages.map (List.map Prod.fst)

/-- The loop body and terminal step of `split_documents`, made explicit:
`documents` is the emitted list, `cur` the current document, and each
stream element carries the page tuple together with the result of
`get_qr_code` on its image (the external QR decoder). -/
def splitGo (correct_length : Int) (documents : List Document)
    (cur : Document) : List (PageT × Option String) → List Document
  | [] => documents ++ [cur]
  | (page, code) :: rest =>
    if code = some FRONT_PAGE_CODE then
      splitGo correct_length
        (if cur.length > 0 then documents ++ [cur] else documents)
        ((Document.init correct_length).add_page page) rest
    else if code = some HEAP_PAGE_CODE then
      splitGo correct_length documents
        ({ cur with has_heap_page := true }.add_page page) rest
    else
      splitGo correct_length documents (cur.add_page page) rest

/-- Function `split_documents(pages, correct_length)`: detects cover pages and
splits the ordered stream into Documents, starting from a fresh empty
current document and emitting it unconditionally at stream end. -/
def split_documents (pages : List (PageT × Option String))
    (correct_length : Int) : List Document :=
  splitGo correct_length [] (Document.init correct_length) pages

/-- Python list-comprehension filter over a predicate that may raise
(here: one that evaluates `Document.isPadded`, which raises on
`target_length = 0`). -/
def filterO (p : Document → Option Bool) : List Document → Option (List Document)
  | [] => some []
  | d :: ds => do
    let b ← p d
    let rest ← filterO p ds
    pure (if b then d :: rest else rest)

/-- The predicate of `good_docs = [doc for doc in docs if not doc.isPadded]`. -/
def notPadded (d : Document) : Option Bool :=
  d.isPadded.map (fun b => !b)

/-- Flattening `[pdf for doc in docs for pdf in doc.pdf_pages]`. -/
def flatten_pdfs (docs : List Document) : Option (List String) :=
  (docs.mapM Document.pdf_pages).map List.flatten

/-- The output stage of `main` (lines 169-180): partition the documents
into `good_docs` / `padded_docs`, flatten each group's pdf pages, and call
`pypdftk.concat` once per group whose flattened list is nonempty.  The
result lists each merge performed as (output filename, pdf list). -/
def output_merges (docs : List Document) (output_filename : String) :
    Option (List (String × List String)) := do
  let good_docs ← filterO notPadded docs
  let padded_docs ← filterO Document.isPadded docs
  let good_pdfs ← flatten_pdfs good_docs
  let padded_pdfs ← flatten_pdfs padded_docs
  pure ((if good_pdfs.length > 0 then
           [(output_filename ++ "_good.pdf", good_pdfs)] else [])
     ++ (if padded_pdfs.length > 0 then
           [(output_filename ++ "_padded.pdf", padded_pdfs)] else []))

/-- The integer statistics printed by `show_summary`: total document
count, unaltered ("did not alter") count, padded count, and the count of
good documents longer than the target length (the warning).  The average
padding is a Python float and is not modelled here; no claim concerns
it. -/
structure SummaryStats where
  total : Nat
  unaltered : Nat
  padded : Nat
  long : Nat
deriving DecidableEq, Repr

/-- Counts printed by `show_summary(good_docs, padded_docs)`. -/
def show_summary_stats (good_docs padded_docs : List Document) : SummaryStats :=
  { total := good_docs.length + padded_docs.length
    unaltered := good_docs.length
    padded := padded_docs.length
    long := (good_docs.filter
      (fun d => d.target_length < (d.length : Int))).length }

/-! ### Helper lemmas: the padding arithmetic for a positive target length -/

theorem pyMod_of_pos (a : Int) {b : Int} (hb : 0 < b) :
    pyMod a b = some (a % b) := by
  unfold pyMod
  rw [if_neg (by omega), Int.fmod_eq_emod _ (le_of_lt hb)]

theorem padding_length_of_pos (d : Document) (ht : 0 < d.target_length) :
    d.padding_length = some ((-(d.length : Int)) % d.target_length) :=
  pyMod_of_pos _ ht

theorem isPadded_of_pos (d : Document) (ht : 0 < d.target_length) :
    d.isPadded = some (decide (0 < (-(d.length : Int)) % d.target_length)) := by
  unfold Document.isPadded
  rw [padding_length_of_pos d ht]
  rfl

/-- In the padded, no-heap-page branch, `Document.pages` splices two
filler pages after index 12 and pads the length-`scannedLength + 2`
result to a multiple of the target length. -/
theorem pages_splice (d : Document) (ht : 0 < d.target_length)
    (hpad : 0 < (-(d.length : Int)) % d.target_length)
    (hheap : d.has_heap_page = false) :
    d.pages = some ((d.scans.take 12 ++ [blank_page, blank_page] ++ d.scans.drop 12)
      ++ List.replicate (((-((d.length : Int) + 2)) % d.target_length).toNat)
          blank_page) := by
  unfold Document.pages
  rw [isPadded_of_pos d ht]
  have hlen : (((d.scans.take 12 ++ [blank_page, blank_page]
      ++ d.scans.drop 12).length : Int)) = (d.length : Int) + 2 := by
    simp [Document.length]
    omega
  simp only [Option.bind_eq_bind, Option.some_bind, hheap, Bool.not_false,
    Bool.and_true, decide_eq_true_eq]
  rw [if_pos hpad, pyMod_of_pos _ ht, hlen]
  simp only [Option.some_bind]
  rw [Int.neg_add]
  rfl

/-- In the padded branch with a heap page, `Document.pages` appends the
padding at the tail with no splice. -/
theorem pages_tail_pad (d : Document) (ht : 0 < d.target_length)
    (hheap : d.has_heap_page = true) :
    d.pages = some (d.scans
      ++ List.replicate (((-(d.length : Int)) % d.target_length).toNat)
          blank_page) := by
  unfold Document.pages
  rw [isPadded_of_pos d ht]
  simp only [Option.bind_eq_bind, Option.some_bind, hheap, Bool.not_true,
    Bool.and_false, Bool.false_eq_true, if_false]
  rw [pyMod_of_pos _ ht]
  rfl

/-- In the unpadded branch, `Document.pages` returns the scans
unchanged. -/
theorem pages_unpadded (d : Document) (ht : 0 < d.target_length)
    (hpad : (-(d.length : Int)) % d.target_length = 0) :
    d.pages = some d.scans := by
  unfold Document.pages
  rw [isPadded_of_pos d ht]
  simp only [Option.bind_eq_bind, Option.some_bind, hpad, decide_eq_true_eq,
    lt_irrefl, Bool.false_and]
  rw [if_neg (by simp), pyMod_of_pos _ ht]
  simp only [Option.some_bind]
  have h0 : ((-(d.scans.length : Int)) % d.target_length).toNat = 0 := by
    have : (-(d.scans.length : Int)) % d.target_length = 0 := hpad
    omega
  rw [h0]
  simp

/-! ### Helper lemmas: the accumulator loop of `split_documents` -/

/-- Already-emitted documents are a passive prefix of the result. -/
theorem splitGo_append (cl : Int) (s : List (PageT × Option String))
    (docs1 docs2 : List Document) (cur : Document) :
    splitGo cl (docs1 ++ docs2) cur s = docs1 ++ splitGo cl docs2 cur s := by
  induction s generalizing docs2 cur with
  | nil => simp [splitGo]
  | cons x rest ih =>
    obtain ⟨page, code⟩ := x
    by_cases hf : code = some FRONT_PAGE_CODE
    · by_cases hc : cur.length > 0
      · simp only [splitGo, if_pos hf, if_pos hc, List.append_assoc]
        exact ih _ _
      · simp only [splitGo, if_pos hf, if_neg hc]
        exact ih _ _
    · by_cases hh : code = some HEAP_PAGE_CODE
      · simp only [splitGo, if_neg hf, if_pos hh]
        exact ih _ _
      · simp only [splitGo, if_neg hf, if_neg hh]
        exact ih _ _

/-- On a stream with no front-page marker the loop extends the current
document with every page, in order, and emits nothing until the end. -/
theorem splitGo_no_front (cl : Int) (s : List (PageT × Option String))
    (hs : ∀ x ∈ s, x.2 ≠ some FRONT_PAGE_CODE) (docs : List Document)
    (cur : Document) :
    ∃ d, splitGo cl docs cur s = docs ++ [d]
      ∧ d.scans = cur.scans ++ s.map Prod.fst
      ∧ d.target_length = cur.target_length := by
  induction s generalizing cur with
  | nil => exact ⟨cur, rfl, by simp, rfl⟩
  | cons x rest ih =>
    obtain ⟨page, code⟩ := x
    have hf : code ≠ some FRONT_PAGE_CODE := hs (page, code) (by simp)
    have hrest : ∀ x ∈ rest, x.2 ≠ some FRONT_PAGE_CODE :=
      fun x hx => hs x (by simp [hx])
    by_cases hh : code = some HEAP_PAGE_CODE
    · obtain ⟨d, h1, h2, h3⟩ := ih hrest ({ cur with has_heap_page := true }.add_page page)
      exact ⟨d, by simp only [splitGo, if_neg hf, if_pos hh]; exact h1,
        by simp [h2, Document.add_page], h3⟩
    · obtain ⟨d, h1, h2, h3⟩ := ih hrest (cur.add_page page)
      exact ⟨d, by simp only [splitGo, if_neg hf, if_neg hh]; exact h1,
        by simp [h2, Document.add_page], h3⟩

/-- Conservation: the concatenation of the scans of all produced
documents is exactly the page stream, in order. -/
theorem splitGo_scans_flatten (cl : Int) (s : List (PageT × Option String))
    (docs : List Document) (cur : Document) :
    ((splitGo cl docs cur s).map Document.scans).flatten
      = ((docs.map Document.scans).flatten ++ cur.scans) ++ s.map Prod.fst := by
  induction s generalizing docs cur with
  | nil => simp [splitGo]
  | cons x rest ih =>
    obtain ⟨page, code⟩ := x
    by_cases hf : code = some FRONT_PAGE_CODE
    · by_cases hc : cur.length > 0
      · simp only [splitGo, if_pos hf, if_pos hc]
        rw [ih]
        simp [Document.add_page, Document.init]
      · have hnil : cur.scans = [] := by
          simpa [Document.length, List.length_eq_zero] using hc
        simp only [splitGo, if_pos hf, if_neg hc]
        rw [ih]
        simp [Document.add_page, Document.init, hnil]
    · by_cases hh : code = some HEAP_PAGE_CODE
      · simp only [splitGo, if_neg hf, if_pos hh]
        rw [ih]
        simp [Document.add_page]
      · simp only [splitGo, if_neg hf, if_neg hh]
        rw [ih]
        simp [Document.add_page]

/-- Every document produced by the loop satisfies a property that holds
of the already-emitted documents and of every document reachable from the
current one by appending stream pages. -/
theorem splitGo_mem (cl : Int) (P : Document → Prop)
    (s : List (PageT × Option String)) (docs : List Document) (cur : Document)
    (hdocs : ∀ d ∈ docs, P d)
    (hP : ∀ d : Document, P d → ∀ page ∈ s.map Prod.fst, P (d.add_page page))
    (hP2 : ∀ d : Document, P d → P { d with has_heap_page := true })
    (hinit : P (Document.init cl)) (hcur : P cur) :
    ∀ d ∈ splitGo cl docs cur s, P d := by
  induction s generalizing docs cur with
  | nil =>
    intro d hd
    simp only [splitGo, List.mem_append, List.mem_singleton] at hd
    rcases hd with hd | hd
    · exact hdocs d hd
    · exact hd ▸ hcur
  | cons x rest ih =>
    obtain ⟨page, code⟩ := x
    have hPrest : ∀ d : Document, P d → ∀ q ∈ rest.map Prod.fst, P (d.add_page q) :=
      fun d hd q hq => hP d hd q (by simp at hq ⊢; tauto)
    have hpmem : page ∈ ((page, code) :: rest).map Prod.fst := by simp
    by_cases hf : code = some FRONT_PAGE_CODE
    · simp only [splitGo, if_pos hf]
      refine ih _ _ ?_ hPrest (hP _ hinit page hpmem)
      intro d hd
      by_cases hc : cur.length > 0 <;> simp [hc] at hd
      · rcases hd with hd | hd
        · exact hdocs d hd
        · exact hd ▸ hcur
      · exact hdocs d hd
    · by_cases hh : code = some HEAP_PAGE_CODE
      · simp only [splitGo, if_neg hf, if_pos hh]
        exact ih _ _ hdocs hPrest (hP _ (hP2 _ hcur) page hpmem)
      · simp only [splitGo, if_neg hf, if_neg hh]
        exact ih _ _ hdocs hPrest (hP _ hcur page hpmem)

/-! ### Helper lemmas: routing and filler removal -/

/-- Padding is non-negative, so `padding_length = some 0` exactly when it
is not positive. -/
theorem padding_zero_of_not_pos (d : Document) (ht : 0 < d.target_length)
    (h : ¬ 0 < (-(d.length : Int)) % d.target_length) :
    (-(d.length : Int)) % d.target_length = 0 := by
  have hnn : 0 ≤ (-(d.length : Int)) % d.target_length :=
    Int.emod_nonneg _ (by omega)
  omega

/-- For documents with a positive target length, the possibly-raising
list comprehension `[doc for doc in docs if not doc.isPadded]` is the
plain filter on `isPadded = some false`. -/
theorem filterO_notPadded (docs : List Document)
    (ht : ∀ d ∈ docs, 0 < d.target_length) :
    filterO notPadded docs
      = some (docs.filter (fun d => decide (d.isPadded = some false))) := by
  induction docs with
  | nil => rfl
  | cons d ds ih =>
    have hd : 0 < d.target_length := ht d (by simp)
    have hrest := ih (fun x hx => ht x (by simp [hx]))
    simp only [filterO, Option.bind_eq_bind, notPadded, isPadded_of_pos d hd,
      Option.map_some', Option.some_bind, hrest, List.filter_cons]
    by_cases hb : 0 < (-(d.length : Int)) % d.target_length
    · simp [isPadded_of_pos d hd, hb]
    · simp [isPadded_of_pos d hd, hb]

/-- Likewise `[doc for doc in docs if doc.isPadded]` is the plain filter
on `isPadded = some true`. -/
theorem filterO_isPadded (docs : List Document)
    (ht : ∀ d ∈ docs, 0 < d.target_length) :
    filterO Document.isPadded docs
      = some (docs.filter (fun d => decide (d.isPadded = some true))) := by
  induction docs with
  | nil => rfl
  | cons d ds ih =>
    have hd : 0 < d.target_length := ht d (by simp)
    have hrest := ih (fun x hx => ht x (by simp [hx]))
    simp only [filterO, Option.bind_eq_bind, isPadded_of_pos d hd,
      Option.some_bind, hrest, List.filter_cons]
    by_cases hb : 0 < (-(d.length : Int)) % d.target_length
    · simp [isPadded_of_pos d hd, hb]
    · simp [isPadded_of_pos d hd, hb]

/-- Removing the filler pages from a document's final page sequence
recovers exactly its scanned pages, in order, provided no scanned page is
the filler tuple itself. -/
theorem pages_filter_scans (d : Document) (ht : 0 < d.target_length)
    (hscans : ∀ p ∈ d.scans, p ≠ blank_page) :
    ∃ ps, d.pages = some ps
      ∧ ps.filter (fun p => decide (p ≠ blank_page)) = d.scans := by
  have hfscans : ∀ l : List PageT, (∀ p ∈ l, p ∈ d.scans) →
      l.filter (fun p => decide (p ≠ blank_page)) = l := by
    intro l hl
    apply List.filter_eq_self.mpr
    intro a ha
    simpa using hscans a (hl a ha)
  have hrep : ∀ k : Nat, (List.replicate k blank_page).filter
      (fun p => decide (p ≠ blank_page)) = [] := by
    intro k
    induction k with
    | zero => rfl
    | succ n ihn => simp [List.replicate_succ, List.filter_cons, ihn]
  by_cases hpad : 0 < (-(d.length : Int)) % d.target_length
  · by_cases hheap : d.has_heap_page
    · refine ⟨_, pages_tail_pad d ht hheap, ?_⟩
      rw [List.filter_append, hrep, List.append_nil]
      exact hfscans d.scans (fun p hp => hp)
    · refine ⟨_, pages_splice d ht hpad (by simpa using hheap), ?_⟩
      rw [List.filter_append, hrep, List.append_nil, List.filter_append,
        List.filter_append]
      rw [hfscans _ (fun p hp => List.take_subset 12 d.scans hp),
        hfscans _ (fun p hp => List.drop_subset 12 d.scans hp)]
      have hbp : ([blank_page, blank_page].filter
          (fun p => decide (p ≠ blank_page))) = [] := by simp
      rw [hbp, List.append_nil, List.take_append_drop]
  · exact ⟨_, pages_unpadded d ht (padding_zero_of_not_pos d ht hpad),
      hfscans d.scans (fun p hp => hp)⟩

/-! ### The claims -/

/-- C1: for every finalized booklet with positive target length, positive
padding length and no heap page, `Document.pages` is the first 12 scans,
two filler pages, the remaining scans, then `(-(scannedLength + 2)) mod
targetLength` trailing filler pages; when fewer than 12 pages were
scanned, the two fillers land immediately after the last scanned page. -/
theorem C1_heap_splice (d : Document) (p : Int) (ht : 0 < d.target_length)
    (hp : d.padding_length = some p) (hpos : 0 < p)
    (hheap : d.has_heap_page = false) :
    d.pages = some ((d.scans.take 12 ++ [blank_page, blank_page] ++ d.scans.drop 12)
        ++ List.replicate (((-((d.length : Int) + 2)) % d.target_length).toNat)
            blank_page)
    ∧ (d.length < 12 →
       d.pages = some ((d.scans ++ [blank_page, blank_page])
        ++ List.replicate (((-((d.length : Int) + 2)) % d.target_length).toNat)
            blank_page)) := by
  have hpv : p = (-(d.length : Int)) % d.target_length := by
    rw [padding_length_of_pos d ht] at hp
    exact (Option.some_inj.mp hp).symm
  have hpad : 0 < (-(d.length : Int)) % d.target_length := hpv ▸ hpos
  refine ⟨pages_splice d ht hpad hheap, fun hlt => ?_⟩
  rw [pages_splice d ht hpad hheap]
  have h12 : d.scans.length ≤ 12 := le_of_lt hlt
  rw [List.take_of_length_le h12, List.drop_eq_nil_of_le h12]
  simp

/-- C1 witness: a one-page booklet with target length 4 and no heap page
is spliced after its only page and padded to 4 pages. -/
theorem C1_heap_splice_witness :
    (⟨[("a", some "x")], 4, false⟩ : Document).pages
      = some [("a", some "x"), blank_page, blank_page, blank_page] := by
  have h := (C1_heap_splice ⟨[("a", some "x")], 4, false⟩ 3 (by decide)
    (by decide) (by decide) rfl).2 (by decide)
  rw [h]
  rfl

/-- C6: for every non-negative `n` and positive `m`, the Python padding
formula `(-n) % m` succeeds with a result in `[0, m)` that completes `n`
to a multiple of `m`; consequently every document with a positive target
length has a padding length in `[0, targetLength)`. -/
theorem C6_padding_arith :
    (∀ (n : Nat) (m : Int), 0 < m →
      ∃ r, pyMod (-(n : Int)) m = some r ∧ 0 ≤ r ∧ r < m
        ∧ ((n : Int) + r) % m = 0)
    ∧ (∀ d : Document, 0 < d.target_length →
      ∃ r, d.padding_length = some r ∧ 0 ≤ r ∧ r < d.target_length) := by
  have key : ∀ (n : Nat) (m : Int), 0 < m →
      ∃ r, pyMod (-(n : Int)) m = some r ∧ 0 ≤ r ∧ r < m
        ∧ ((n : Int) + r) % m = 0 := by
    intro n m hm
    refine ⟨(-(n : Int)) % m, pyMod_of_pos _ hm,
      Int.emod_nonneg _ (by omega), Int.emod_lt_of_pos _ hm, ?_⟩
    conv_lhs => rw [Int.add_emod, Int.emod_emod_of_dvd _ dvd_rfl]
    rw [← Int.add_emod]
    simp
  refine ⟨key, fun d ht => ?_⟩
  obtain ⟨r, h1, h2, h3, _⟩ := key d.length d.target_length ht
  exact ⟨r, h1, h2, h3⟩

/-- C6 witness: the padding formula at `n = 7`, `m = 3`, and the padding
length of a concrete 7-page document with target length 3. -/
theorem C6_padding_arith_witness :
    (∃ r, pyMod (-((7 : Nat) : Int)) 3 = some r ∧ 0 ≤ r ∧ r < 3
      ∧ (((7 : Nat) : Int) + r) % 3 = 0)
    ∧ ∃ r, (⟨List.replicate 7 ("a", some "x"), 3, false⟩ : Document).padding_length
        = some r ∧ 0 ≤ r ∧ r < 3 := by
  exact ⟨C6_padding_arith.1 7 3 (by decide),
    C6_padding_arith.2 ⟨List.replicate 7 ("a", some "x"), 3, false⟩ (by decide)⟩

/-- C7: for a positive target length, a zero padding length (which holds
in particular when the scanned length equals the target length) leaves
`Document.pages` equal to the scans; a positive padding length with a
heap page appends exactly that many filler pages at the tail with no
splice. -/
theorem C7_no_splice_branches (d : Document) (ht : 0 < d.target_length) :
    (d.padding_length = some 0 → d.pages = some d.scans)
    ∧ ((d.length : Int) = d.target_length → d.padding_length = some 0)
    ∧ (∀ p : Int, d.padding_length = some p → 0 < p →
        d.has_heap_page = true →
        d.pages = some (d.scans ++ List.replicate p.toNat blank_page)) := by
  refine ⟨fun h0 => ?_, fun heq => ?_, fun p hp hpos hheap => ?_⟩
  · rw [padding_length_of_pos d ht] at h0
    exact pages_unpadded d ht (Option.some_inj.mp h0)
  · rw [padding_length_of_pos d ht, ← heq]
    simp
  · rw [padding_length_of_pos d ht] at hp
    rw [pages_tail_pad d ht hheap, ← Option.some_inj.mp hp]

/-- C7 witness: instantiated on an exactly-target-length booklet and on a
padded booklet with a heap page. -/
theorem C7_no_splice_branches_witness :
    ((⟨[("a", some "x"), ("b", some "y")], 2, true⟩ : Document).pages
      = some [("a", some "x"), ("b", some "y")])
    ∧ ((⟨[("a", some "x")], 3, true⟩ : Document).pages
      = some [("a", some "x"), blank_page, blank_page]) := by
  constructor
  · exact (C7_no_splice_branches ⟨[("a", some "x"), ("b", some "y")], 2, true⟩
      (by decide)).1 ((C7_no_splice_branches _ (by decide)).2.1 (by decide))
  · have h := (C7_no_splice_branches ⟨[("a", some "x")], 3, true⟩
      (by decide)).2.2 2 (by decide) (by decide) rfl
    rw [h]
    rfl

/-- C8: the empty booklet produced by the terminal emission on an empty
stream is processed by `Document.pages` without error for every positive
target length, yielding the empty final sequence. -/
theorem C8_empty_booklet (t : Int) (ht : 0 < t) :
    split_documents [] t = [Document.init t]
    ∧ (Document.init t).pages = some [] := by
  refine ⟨rfl, ?_⟩
  have h0 : (-(Document.length (Document.init t) : Int)) % t = 0 := by
    simp [Document.init, Document.length]
  exact pages_unpadded (Document.init t) ht h0

/-- C8 witness: target length 5. -/
theorem C8_empty_booklet_witness :
    split_documents [] 5 = [Document.init 5]
    ∧ (Document.init 5).pages = some [] :=
  C8_empty_booklet 5 (by decide)

/-- A positive target length never makes `Document.pages` raise. -/
theorem pages_some (d : Document) (ht : 0 < d.target_length) :
    ∃ ps, d.pages = some ps := by
  by_cases hpad : 0 < (-(d.length : Int)) % d.target_length
  · by_cases hheap : d.has_heap_page
    · exact ⟨_, pages_tail_pad d ht hheap⟩
    · exact ⟨_, pages_splice d ht hpad (by simpa using hheap)⟩
  · exact ⟨_, pages_unpadded d ht (padding_zero_of_not_pos d ht hpad)⟩

/-- Flattening the pdf pages of documents with positive target lengths
never raises. -/
theorem flatten_pdfs_some (docs : List Document)
    (ht : ∀ d ∈ docs, 0 < d.target_length) :
    ∃ ps, flatten_pdfs docs = some ps := by
  induction docs with
  | nil => exact ⟨[], rfl⟩
  | cons d ds ih =>
    obtain ⟨ps, hps⟩ := ih (fun x hx => ht x (by simp [hx]))
    obtain ⟨l, hl⟩ := pages_some d (ht d (by simp))
    have hpdf : d.pdf_pages = some (l.map Prod.fst) := by
      rw [Document.pdf_pages, hl, Option.map_some']
    simp only [flatten_pdfs, List.mapM_cons, hpdf] at hps ⊢
    obtain ⟨ls, hls, _⟩ := Option.map_eq_some'.mp hps
    rw [hls]
    exact ⟨_, rfl⟩

/-- Each document with a positive target length lands in exactly one of
the two output groups. -/
theorem filter_padded_length (docs : List Document)
    (ht : ∀ d ∈ docs, 0 < d.target_length) :
    (docs.filter (fun d => decide (d.isPadded = some false))).length
      + (docs.filter (fun d => decide (d.isPadded = some true))).length
      = docs.length := by
  induction docs with
  | nil => rfl
  | cons d ds ih =>
    have hd := ht d (by simp)
    have hrest := ih (fun x hx => ht x (by simp [hx]))
    rw [List.filter_cons, List.filter_cons]
    by_cases hb : 0 < (-(d.length : Int)) % d.target_length
    · simp [isPadded_of_pos d hd, hb]
      omega
    · simp [isPadded_of_pos d hd, hb]
      omega

/-- The input stream of Scenario A: a front-page marker at position 0
followed by 8 unmarked content pages, 9 pages in total. -/
def scenarioA : List (PageT × Option String) :=
  [(("p0", some "i0"), some FRONT_PAGE_CODE),
   (("p1", some "i1"), none), (("p2", some "i2"), none),
   (("p3", some "i3"), none), (("p4", some "i4"), none),
   (("p5", some "i5"), none), (("p6", some "i6"), none),
   (("p7", some "i7"), none), (("p8", some "i8"), none)]

/-- C2 counterexample: on Scenario A with target length 10 the final page
sequence does not have length 12: the splice yields 11 pages and the
trailing padding `(-11) mod 10 = 9` brings the total to 20. -/
theorem C2_counterexample :
    (split_documents scenarioA 10).map (fun d => d.pages.map List.length)
      ≠ [some 12] := by decide

/-- C2 (amended): on Scenario A with target length 10 the accumulator
produces exactly one booklet with scanned length 9 and padding length 1;
the heap-splice rule applies with the two filler pages placed after the
last scanned page, and the final page sequence is the 9 scanned pages,
the 2 spliced fillers, then 9 trailing fillers — 20 pages in total. -/
theorem C2_scenarioA :
    (split_documents scenarioA 10).length = 1
    ∧ (split_documents scenarioA 10).map Document.length = [9]
    ∧ (split_documents scenarioA 10).map Document.padding_length = [some 1]
    ∧ (split_documents scenarioA 10).map Document.pages
        = [some (scenarioA.map Prod.fst ++ [blank_page, blank_page]
            ++ List.replicate 9 blank_page)]
    ∧ (split_documents scenarioA 10).map (fun d => d.pages.map List.length)
        = [some 20] := by decide

/-- C3: the accumulator emits on a front-page marker exactly when the
current booklet is non-empty and starts a fresh booklet holding the cover
either way; it emits unconditionally at stream end; two consecutive
front-page markers produce a one-page booklet holding just the cover, and
a stream with no front-page marker yields exactly one booklet holding the
entire input. -/
theorem C3_accumulator (cl : Int) :
    (∀ (docs : List Document) (cur : Document) (page : PageT)
        (rest : List (PageT × Option String)),
      splitGo cl docs cur ((page, some FRONT_PAGE_CODE) :: rest)
        = splitGo cl (if cur.length > 0 then docs ++ [cur] else docs)
            ((Document.init cl).add_page page) rest)
    ∧ (∀ (docs : List Document) (cur : Document),
        splitGo cl docs cur [] = docs ++ [cur])
    ∧ (∀ (page1 page2 : PageT) (rest : List (PageT × Option String)),
        split_documents ((page1, some FRONT_PAGE_CODE)
            :: (page2, some FRONT_PAGE_CODE) :: rest) cl
          = (Document.init cl).add_page page1
              :: split_documents ((page2, some FRONT_PAGE_CODE) :: rest) cl)
    ∧ (∀ s : List (PageT × Option String),
        (∀ x ∈ s, x.2 ≠ some FRONT_PAGE_CODE) →
        ∃ d, split_documents s cl = [d] ∧ d.scans = s.map Prod.fst) := by
  refine ⟨fun docs cur page rest => by simp [splitGo],
    fun docs cur => rfl, fun p1 p2 rest => ?_, fun s hs => ?_⟩
  · have h1 : split_documents ((p1, some FRONT_PAGE_CODE)
        :: (p2, some FRONT_PAGE_CODE) :: rest) cl
        = splitGo cl ([(Document.init cl).add_page p1] ++ [])
            ((Document.init cl).add_page p2) rest := by
      simp [split_documents, splitGo, Document.init, Document.length,
        Document.add_page]
    have h2 : split_documents ((p2, some FRONT_PAGE_CODE) :: rest) cl
        = splitGo cl [] ((Document.init cl).add_page p2) rest := by
      simp [split_documents, splitGo, Document.init, Document.length]
    rw [h1, splitGo_append, h2]
    simp
  · obtain ⟨d, h1, h2, _⟩ := splitGo_no_front cl s hs [] (Document.init cl)
    exact ⟨d, by simpa using h1, by simpa [Document.init] using h2⟩

/-- C3 witness: a two-page stream with no front-page marker yields one
booklet holding both pages. -/
theorem C3_accumulator_witness :
    ∃ d, split_documents [(("p1", some "i1"), none),
        (("p2", some "i2"), some HEAP_PAGE_CODE)] 5 = [d]
      ∧ d.scans = [("p1", some "i1"), ("p2", some "i2")] := by
  obtain ⟨d, h1, h2⟩ := (C3_accumulator 5).2.2.2
    [(("p1", some "i1"), none), (("p2", some "i2"), some HEAP_PAGE_CODE)]
    (by decide)
  exact ⟨d, h1, by simpa using h2⟩

/-- C4: every input page appears in exactly one booklet's scans, in the
original relative order across the concatenation of all booklets, and
removing the filler pages from each booklet's final sequence recovers
exactly its scanned pages, in order. -/
theorem C4_conservation (s : List (PageT × Option String)) (cl : Int)
    (ht : 0 < cl) (hs : ∀ x ∈ s, x.1 ≠ blank_page) :
    ((split_documents s cl).map Document.scans).flatten = s.map Prod.fst
    ∧ ∀ d ∈ split_documents s cl, ∃ ps, d.pages = some ps
        ∧ ps.filter (fun p => decide (p ≠ blank_page)) = d.scans := by
  constructor
  · rw [split_documents, splitGo_scans_flatten]
    simp [Document.init]
  · intro d hd
    have htarget : d.target_length = cl := by
      refine splitGo_mem cl (fun d => d.target_length = cl) s []
        (Document.init cl) (by simp) ?_ ?_ rfl rfl d hd
      · intro x hx page _
        exact hx
      · intro x hx
        exact hx
    have hscans : ∀ p ∈ d.scans, p ≠ blank_page := by
      refine splitGo_mem cl (fun d => ∀ p ∈ d.scans, p ≠ blank_page) s []
        (Document.init cl) (by simp) ?_ ?_ (by simp [Document.init])
        (by simp [Document.init]) d hd
      · intro x hx page hpage q hq
        simp only [Document.add_page, List.mem_append, List.mem_singleton] at hq
        rcases hq with hq | hq
        · exact hx q hq
        · obtain ⟨y, hy, hy2⟩ := List.mem_map.mp hpage
          exact hq ▸ hy2 ▸ hs y hy
      · intro x hx q hq
        exact hx q hq
    exact pages_filter_scans d (htarget ▸ ht) hscans

/-- C4 witness: a one-page stream starting with a cover page. -/
theorem C4_conservation_witness :
    (((split_documents [(("p1", some "i1"), some FRONT_PAGE_CODE)] 2).map
        Document.scans).flatten = [("p1", some "i1")])
    ∧ ∀ d ∈ split_documents [(("p1", some "i1"), some FRONT_PAGE_CODE)] 2,
        ∃ ps, d.pages = some ps
          ∧ ps.filter (fun p => decide (p ≠ blank_page)) = d.scans := by
  have h := C4_conservation [(("p1", some "i1"), some FRONT_PAGE_CODE)] 2
    (by decide) (by decide)
  exact ⟨by simpa using h.1, h.2⟩

/-- C5 (code evidence): a non-positive target length is not rejected
before processing.  The accumulator consumes the whole stream for target
length 0 and the error surfaces only when the padding is computed
(the Python division-by-zero error, modelled as `none`); a negative target
length is accepted silently and produces an unpadded document. -/
theorem C5_no_early_rejection :
    split_documents [(("p1", some "i1"), none)] 0
      = [⟨[("p1", some "i1")], 0, false⟩]
    ∧ (⟨[("p1", some "i1")], 0, false⟩ : Document).padding_length = none
    ∧ (⟨[("p1", some "i1")], 0, false⟩ : Document).pages = none
    ∧ split_documents [(("p1", some "i1"), none)] (-3)
      = [⟨[("p1", some "i1")], -3, false⟩]
    ∧ (⟨[("p1", some "i1")], -3, false⟩ : Document).isPadded = some false
    ∧ (⟨[("p1", some "i1")], -3, false⟩ : Document).pages
      = some [("p1", some "i1")] := by decide

/-- C9: the output stage partitions the documents into the unpadded
group (`isPadded = some false`) and the padded group (`isPadded = some
true`), preserving relative order within each group (each group is an
order-preserving sublist, namely the filter), covers each document
exactly once, flattens each group's pdf pages into one ordered sequence,
and performs no merge for a group that is empty. -/
theorem C9_output_router (docs : List Document) (fname : String)
    (ht : ∀ d ∈ docs, 0 < d.target_length) :
    ∃ good padded gps pps,
      filterO notPadded docs = some good
    ∧ filterO Document.isPadded docs = some padded
    ∧ good = docs.filter (fun d => decide (d.isPadded = some false))
    ∧ padded = docs.filter (fun d => decide (d.isPadded = some true))
    ∧ good.Sublist docs
    ∧ padded.Sublist docs
    ∧ good.length + padded.length = docs.length
    ∧ flatten_pdfs good = some gps
    ∧ flatten_pdfs padded = some pps
    ∧ output_merges docs fname
        = some ((if gps.length > 0 then [(fname ++ "_good.pdf", gps)] else [])
             ++ (if pps.length > 0 then [(fname ++ "_padded.pdf", pps)] else []))
    ∧ (good = [] →
        output_merges docs fname
          = some (if pps.length > 0 then [(fname ++ "_padded.pdf", pps)] else []))
    ∧ (padded = [] →
        output_merges docs fname
          = some (if gps.length > 0 then [(fname ++ "_good.pdf", gps)] else [])) := by
  obtain ⟨gps, hgps⟩ := flatten_pdfs_some
    (docs.filter (fun d => decide (d.isPadded = some false)))
    (fun d hd => ht d (List.mem_of_mem_filter hd))
  obtain ⟨pps, hpps⟩ := flatten_pdfs_some
    (docs.filter (fun d => decide (d.isPadded = some true)))
    (fun d hd => ht d (List.mem_of_mem_filter hd))
  have hmerge : output_merges docs fname
      = some ((if gps.length > 0 then [(fname ++ "_good.pdf", gps)] else [])
           ++ (if pps.length > 0 then [(fname ++ "_padded.pdf", pps)] else [])) := by
    unfold output_merges
    rw [filterO_notPadded docs ht, filterO_isPadded docs ht]
    simp only [Option.bind_eq_bind, Option.some_bind]
    rw [hgps, hpps]
    rfl
  refine ⟨_, _, gps, pps, filterO_notPadded docs ht, filterO_isPadded docs ht,
    rfl, rfl, List.filter_sublist _, List.filter_sublist _,
    filter_padded_length docs ht, hgps, hpps, hmerge, ?_, ?_⟩
  · intro hnil
    rw [hnil] at hgps
    have hg : gps = [] := by
      have h0 : flatten_pdfs ([] : List Document) = some [] := rfl
      rw [h0] at hgps
      exact (Option.some_inj.mp hgps).symm
    rw [hmerge, hg]
    simp
  · intro hnil
    rw [hnil] at hpps
    have hp' : pps = [] := by
      have h0 : flatten_pdfs ([] : List Document) = some [] := rfl
      rw [h0] at hpps
      exact (Option.some_inj.mp hpps).symm
    rw [hmerge, hp']
    simp

/-- C9 witness: one unpadded single-page document, target length 1. -/
theorem C9_output_router_witness :
    ∃ good padded gps pps,
      filterO notPadded [⟨[("a", some "x")], 1, false⟩] = some good
    ∧ filterO Document.isPadded [⟨[("a", some "x")], 1, false⟩] = some padded
    ∧ good = [(⟨[("a", some "x")], 1, false⟩ : Document)].filter
        (fun d => decide (d.isPadded = some false))
    ∧ padded = [(⟨[("a", some "x")], 1, false⟩ : Document)].filter
        (fun d => decide (d.isPadded = some true))
    ∧ good.Sublist [⟨[("a", some "x")], 1, false⟩]
    ∧ padded.Sublist [⟨[("a", some "x")], 1, false⟩]
    ∧ good.length + padded.length = [(⟨[("a", some "x")], 1, false⟩ : Document)].length
    ∧ flatten_pdfs good = some gps
    ∧ flatten_pdfs padded = some pps
    ∧ output_merges [⟨[("a", some "x")], 1, false⟩] "out"
        = some ((if gps.length > 0 then [("out" ++ "_good.pdf", gps)] else [])
             ++ (if pps.length > 0 then [("out" ++ "_padded.pdf", pps)] else []))
    ∧ (good = [] →
        output_merges [⟨[("a", some "x")], 1, false⟩] "out"
          = some (if pps.length > 0 then [("out" ++ "_padded.pdf", pps)] else []))
    ∧ (padded = [] →
        output_merges [⟨[("a", some "x")], 1, false⟩] "out"
          = some (if gps.length > 0 then [("out" ++ "_good.pdf", gps)] else [])) :=
  C9_output_router [⟨[("a", some "x")], 1, false⟩] "out" (by decide)

/-- C10: for every positive target length the empty booklet has padding
length 0 and is not padded, so in any batch it is routed to the unpadded
group and never to the padded group, it is counted by the summary's total
and unaltered counts, and it contributes no pages to any output. -/
theorem C10_empty_doc_routing (t : Int) (ht : 0 < t) :
    (Document.init t).padding_length = some 0
    ∧ (Document.init t).isPadded = some false
    ∧ (Document.init t).pdf_pages = some []
    ∧ ∀ docs : List Document, (∀ d ∈ docs, 0 < d.target_length) →
        Document.init t ∈ docs →
        ∃ good padded,
          filterO notPadded docs = some good
          ∧ filterO Document.isPadded docs = some padded
          ∧ Document.init t ∈ good
          ∧ Document.init t ∉ padded
          ∧ (show_summary_stats good padded).total = docs.length
          ∧ (show_summary_stats good padded).unaltered = good.length := by
  have hpad : (Document.init t).padding_length = some 0 := by
    rw [padding_length_of_pos (Document.init t) ht]
    simp [Document.init, Document.length]
  have hisp : (Document.init t).isPadded = some false := by
    rw [Document.isPadded, hpad]
    rfl
  have hpages : (Document.init t).pages = some [] :=
    pages_unpadded (Document.init t) ht (by simp [Document.init, Document.length])
  refine ⟨hpad, hisp, by rw [Document.pdf_pages, hpages]; rfl,
    fun docs htd hmem => ?_⟩
  refine ⟨_, _, filterO_notPadded docs htd, filterO_isPadded docs htd,
    List.mem_filter.mpr ⟨hmem, by simp [hisp]⟩, ?_,
    filter_padded_length docs htd, rfl⟩
  intro hbad
  have := (List.mem_filter.mp hbad).2
  rw [hisp] at this
  simp at this

/-- C10 witness: target length 5, batch holding just the empty booklet. -/
theorem C10_empty_doc_routing_witness :
    (Document.init 5).padding_length = some 0
    ∧ (Document.init 5).isPadded = some false
    ∧ (Document.init 5).pdf_pages = some []
    ∧ ∃ good padded,
        filterO notPadded [Document.init 5] = some good
        ∧ filterO Document.isPadded [Document.init 5] = some padded
        ∧ Document.init 5 ∈ good
        ∧ Document.init 5 ∉ padded
        ∧ (show_summary_stats good padded).total = [Document.init 5].length
        ∧ (show_summary_stats good padded).unaltered = good.length := by
  obtain ⟨h1, h2, h3, h4⟩ := C10_empty_doc_routing 5 (by decide)
  exact ⟨h1, h2, h3, h4 [Document.init 5] (by decide) (by simp)⟩
